import Mathlib

/-!
Verification of the `fields_mutated_by_whitelist` clippy lint
(`clippy_lints/src/whitelist_mutation.rs`).

The embedding mirrors the rustc data the lint pass inspects:
token trees of attribute argument lists, attributes, struct fields,
HIR items, and the lint-pass state.  The lint pass in the source
consists of `FieldsMutatedByWhitelist` (a set of allowed function
names), `check_crate` (which runs a `FieldVisitor` over all items),
`visit_item` (which calls `check_struct_fields` on struct items) and
`check_struct_fields` (which collects identifier tokens out of every
delimited normal attribute of the item and inserts them into the set).
The source contains no call to any diagnostic-emission API, so the
embedded pass threads an (never extended) list of emitted diagnostics
to make that observable.
-/

/-- Token kinds relevant to the lint: `TokenKind::Ident`, `TokenKind::Literal`
(string literals such as `"allowed_function"` are literals, not identifiers),
and everything else (commas, punctuation, ...). -/
inductive TokenKind where
  | ident (name : String)
  | literal (val : String)
  | other

/-- A token tree of an attribute argument stream: a single token or a
delimited subtree.  `delimited.tokens.trees()` in the source iterates the
top-level trees of the stream. -/
inductive TokenTree where
  | token (kind : TokenKind)
  | delimited (trees : List TokenTree)

/-- `AttrArgs`: the argument part of an attribute — empty (`#[name]`),
delimited (`#[name(...)]`) or `name = value`. -/
inductive AttrArgs where
  | empty
  | delimited (tokens : List TokenTree)
  | eqArg (value : String)

/-- `AttrItem`: path (the attribute's name, e.g. `mutatedby`) plus args. -/
structure AttrItem where
  path : String
  args : AttrArgs

/-- `AttrKind`: a normal attribute or a doc comment. -/
inductive AttrKind where
  | normal (item : AttrItem)
  | docComment (text : String)

/-- An attribute as attached to an item or a field. -/
structure Attribute where
  kind : AttrKind

/-- A mutation site: which field of which type is written, inside which
function, at which source span.  The lint pass never inspects these
(no scanner exists in the source); they are carried so that claims about
diagnostics at mutation sites can be stated. -/
structure MutationSite where
  typeName : String
  fieldName : String
  enclosingFunction : String
  span : Nat
deriving DecidableEq

/-- A struct field: name plus its own attribute list.  The source reads
`attrs(struct_hir_id)` — the attributes of the struct item itself — and
never the attributes of the fields. -/
structure FieldDef where
  name : String
  attrs : List Attribute

/-- The item kinds distinguished by `FieldVisitor::visit_item`: only
`ItemKind::Struct` is acted on; enums, unions and functions fall through. -/
inductive ItemKind where
  | structDecl (fields : List FieldDef)
  | enumDecl
  | unionDecl
  | fnDecl (body : List MutationSite)

/-- A HIR item: name, its attached attributes, and its kind. -/
structure Item where
  name : String
  attrs : List Attribute
  kind : ItemKind

/-- A compilation unit: the items visited by
`visit_all_item_likes_in_crate`. -/
abbrev Crate := List Item

/-- A diagnostic as the spec describes one: field, offending function,
permitted set, source span.  The source never constructs one. -/
structure Diagnostic where
  fieldName : String
  functionName : String
  permitted : List String
  span : Nat
deriving DecidableEq

/-- The lint pass struct: a single flat `FxHashSet<String>` of allowed
function names (no per-field keying exists in the source). -/
structure FieldsMutatedByWhitelist where
  allowed_functions : Finset String
deriving DecidableEq

/-- `FieldsMutatedByWhitelist::new`. -/
def FieldsMutatedByWhitelist.new : FieldsMutatedByWhitelist := ⟨∅⟩

/-- `FieldsMutatedByWhitelist::add_function`: inserts one name into the set. -/
def FieldsMutatedByWhitelist.add_function
    (p : FieldsMutatedByWhitelist) (function_name : String) :
    FieldsMutatedByWhitelist :=
  ⟨insert function_name p.allowed_functions⟩

/-- The observable state threaded through the visitor: the accumulated
allowed-function set and the list of diagnostics emitted so far.  The
source code contains no emission call, so no embedded operation ever
appends to `diagnostics`. -/
structure LintState where
  allowed_functions : Finset String
  diagnostics : List Diagnostic
deriving DecidableEq

/-- The `filter_map` over `delimited.tokens.trees()` in
`check_struct_fields`: keep a top-level `TokenTree::Token` whose kind is
`TokenKind::Ident`, drop every other tree (literals, punctuation, nested
delimited groups). -/
def extractFunctionNames (trees : List TokenTree) : List String :=
  trees.filterMap fun tt =>
    match tt with
    | TokenTree.token (TokenKind.ident name) => some name
    | _ => none

/-- The body of the `for attr in attrs` loop of `check_struct_fields`:
for a normal attribute with delimited args, insert every extracted
identifier into `allowed_functions`; any other attribute is skipped.
The attribute's path is never examined. -/
def attrStep (st : LintState) (attr : Attribute) : LintState :=
  match attr.kind with
  | AttrKind.normal item =>
    match item.args with
    | AttrArgs.delimited tokens =>
      { st with
        allowed_functions :=
          (extractFunctionNames tokens).foldl
            (fun acc n => insert n acc) st.allowed_functions }
    | _ => st
  | _ => st

/-- `FieldVisitor::check_struct_fields`: iterate the attributes attached
to the struct item (not to its fields) and run `attrStep` on each. -/
def check_struct_fields (s : LintState) (attrs : List Attribute) : LintState :=
  attrs.foldl attrStep s

/-- `FieldVisitor::visit_item`: only `ItemKind::Struct` items are
processed, via `check_struct_fields` on the item's own attributes. -/
def visit_item (s : LintState) (item : Item) : LintState :=
  match item.kind with
  | ItemKind.structDecl _ => check_struct_fields s item.attrs
  | _ => s

/-- `FieldsMutatedByWhitelist::check_crate`: run the visitor over every
item of the crate, starting from the pass's current set and an empty
diagnostic list.  No statement of the source emits a diagnostic. -/
def check_crate (pass : FieldsMutatedByWhitelist) (c : Crate) : LintState :=
  c.foldl visit_item
    { allowed_functions := pass.allowed_functions, diagnostics := [] }

/-! ### Concrete inputs -/

/-- A `#[mutatedby(a, b, ...)]` attribute whose arguments are identifier
tokens. -/
def mutatedbyAttr (names : List String) : Attribute :=
  ⟨AttrKind.normal
    ⟨"mutatedby",
     AttrArgs.delimited (names.map fun n => TokenTree.token (TokenKind.ident n))⟩⟩

/-- A `#[mutatedby("a", "b", ...)]` attribute whose arguments are string
literals, as in the repository's own documentation example and ui test. -/
def mutatedbyStrAttr (names : List String) : Attribute :=
  ⟨AttrKind.normal
    ⟨"mutatedby",
     AttrArgs.delimited (names.map fun n => TokenTree.token (TokenKind.literal n))⟩⟩

/-- A `#[derive(Clone)]` attribute: a normal delimited attribute whose
name is not `mutatedby`. -/
def deriveCloneAttr : Attribute :=
  ⟨AttrKind.normal
    ⟨"derive", AttrArgs.delimited [TokenTree.token (TokenKind.ident "Clone")]⟩⟩

/-- The repository's own ui test `tests/ui/whitelist_mutation.rs`:
`TestStruct` with field `field` annotated `#[mutatedby("allowed_function")]`
(a field-level attribute with a string-literal argument), a method
`allowed_function` assigning the field at line 10, a method
`disallowed_function` compound-assigning it at line 14 (the line the test
marks `// Should trigger a lint warning`), and `main`. -/
def testTs : Crate :=
  [ ⟨"TestStruct", [],
      ItemKind.structDecl [⟨"field", [mutatedbyStrAttr ["allowed_function"]]⟩]⟩,
    ⟨"allowed_function", [],
      ItemKind.fnDecl [⟨"TestStruct", "field", "allowed_function", 10⟩]⟩,
    ⟨"disallowed_function", [],
      ItemKind.fnDecl [⟨"TestStruct", "field", "disallowed_function", 14⟩]⟩,
    ⟨"main", [], ItemKind.fnDecl []⟩ ]

/-- Two structs, each whitelisting one function for one of its own fields
via a struct-level `#[mutatedby(..)]` attribute. -/
def twoStructCrate : Crate :=
  [ ⟨"A", [mutatedbyAttr ["f"]], ItemKind.structDecl [⟨"x", []⟩]⟩,
    ⟨"B", [mutatedbyAttr ["g"]], ItemKind.structDecl [⟨"y", []⟩]⟩ ]

/-- One unrelated struct carrying both names in a single attribute. -/
def oneStructCrate : Crate :=
  [ ⟨"C", [mutatedbyAttr ["f", "g"]], ItemKind.structDecl [⟨"z", []⟩]⟩ ]

/-- A struct whose `#[mutatedby()]` attribute has an empty argument list,
together with a function mutating its field: the spec's deny-all scenario. -/
def emptyAnnotCrate : Crate :=
  [ ⟨"E", [mutatedbyAttr []], ItemKind.structDecl [⟨"x", []⟩]⟩,
    ⟨"anybody", [], ItemKind.fnDecl [⟨"E", "x", "anybody", 5⟩]⟩ ]

/-- A struct whose `#[mutatedby("allowed_function")]` attribute sits on the
struct item itself, so that `check_struct_fields` does reach it. -/
def strLitCrate : Crate :=
  [ ⟨"S", [mutatedbyStrAttr ["allowed_function"]],
      ItemKind.structDecl [⟨"field", []⟩]⟩ ]

/-- Whether some struct item named `tyName` has a field named `fldName`
carrying an attribute whose path is `mutatedby`: the claim-level notion of
an annotated field. -/
def fieldHasMutatedbyAttr (c : Crate) (tyName fldName : String) : Bool :=
  c.any fun it =>
    it.name == tyName &&
    (match it.kind with
     | ItemKind.structDecl fields =>
       fields.any fun f =>
         f.name == fldName &&
         f.attrs.any fun a =>
           match a.kind with
           | AttrKind.normal i => i.path == "mutatedby"
           | _ => false
     | _ => false)

/-! ### Characterization of the pass -/

/-- The identifier tokens contributed by one attribute: the extracted
names of a delimited normal attribute, nothing for any other attribute. -/
def attrIdents (a : Attribute) : Finset String :=
  match a.kind with
  | AttrKind.normal item =>
    match item.args with
    | AttrArgs.delimited tokens => (extractFunctionNames tokens).toFinset
    | _ => ∅
  | _ => ∅

/-- Union of the identifier tokens of a list of attributes. -/
def attrListIdents : List Attribute → Finset String
  | [] => ∅
  | a :: t => attrIdents a ∪ attrListIdents t

/-- The identifier tokens a single item contributes: those of its own
attribute list if it is a struct declaration, nothing otherwise. -/
def itemIdents (it : Item) : Finset String :=
  match it.kind with
  | ItemKind.structDecl _ => attrListIdents it.attrs
  | _ => ∅

/-- Union over every struct item of the crate of the identifier tokens of
every delimited normal attribute attached to that item. -/
def crateStructIdents : Crate → Finset String
  | [] => ∅
  | it :: t => itemIdents it ∪ crateStructIdents t

theorem foldl_insert_eq_union (L : List String) (A : Finset String) :
    L.foldl (fun acc n => insert n acc) A = A ∪ L.toFinset := by
  induction L generalizing A with
  | nil => simp
  | cons n t ih =>
    rw [List.foldl_cons, ih]
    ext a
    simp [or_comm, or_left_comm]

theorem attrStep_diagnostics (st : LintState) (a : Attribute) :
    (attrStep st a).diagnostics = st.diagnostics := by
  rcases a with ⟨k⟩
  cases k with
  | normal i =>
    rcases i with ⟨p, args⟩
    cases args <;> rfl
  | docComment t => rfl

theorem attrStep_allowed (st : LintState) (a : Attribute) :
    (attrStep st a).allowed_functions = st.allowed_functions ∪ attrIdents a := by
  rcases a with ⟨k⟩
  cases k with
  | normal i =>
    rcases i with ⟨p, args⟩
    cases args with
    | delimited tokens =>
      simp [attrStep, attrIdents, foldl_insert_eq_union]
    | empty => simp [attrStep, attrIdents]
    | eqArg v => simp [attrStep, attrIdents]
  | docComment t => simp [attrStep, attrIdents]

theorem check_struct_fields_spec (attrs : List Attribute) (s : LintState) :
    (check_struct_fields s attrs).allowed_functions
        = s.allowed_functions ∪ attrListIdents attrs
      ∧ (check_struct_fields s attrs).diagnostics = s.diagnostics := by
  induction attrs generalizing s with
  | nil => simp [check_struct_fields, attrListIdents]
  | cons a t ih =>
    have h := ih (attrStep s a)
    constructor
    · rw [check_struct_fields, List.foldl_cons, ← check_struct_fields, h.1,
        attrStep_allowed, attrListIdents, Finset.union_assoc]
    · rw [check_struct_fields, List.foldl_cons, ← check_struct_fields, h.2,
        attrStep_diagnostics]

theorem visit_item_spec (s : LintState) (it : Item) :
    (visit_item s it).allowed_functions = s.allowed_functions ∪ itemIdents it
      ∧ (visit_item s it).diagnostics = s.diagnostics := by
  rcases it with ⟨n, attrs, k⟩
  cases k with
  | structDecl fields =>
    exact ⟨(check_struct_fields_spec attrs _).1, (check_struct_fields_spec attrs _).2⟩
  | enumDecl => simp [visit_item, itemIdents]
  | unionDecl => simp [visit_item, itemIdents]
  | fnDecl body => simp [visit_item, itemIdents]

theorem foldl_visit_item_spec (items : List Item) (s : LintState) :
    (items.foldl visit_item s).allowed_functions
        = s.allowed_functions ∪ crateStructIdents items
      ∧ (items.foldl visit_item s).diagnostics = s.diagnostics := by
  induction items generalizing s with
  | nil => simp [crateStructIdents]
  | cons it t ih =>
    have h := ih (visit_item s it)
    constructor
    · rw [List.foldl_cons, h.1, (visit_item_spec s it).1, crateStructIdents,
        Finset.union_assoc]
    · rw [List.foldl_cons, h.2, (visit_item_spec s it).2]

theorem check_crate_allowed (p : FieldsMutatedByWhitelist) (c : Crate) :
    (check_crate p c).allowed_functions
      = p.allowed_functions ∪ crateStructIdents c :=
  (foldl_visit_item_spec c _).1

theorem check_crate_diagnostics (p : FieldsMutatedByWhitelist) (c : Crate) :
    (check_crate p c).diagnostics = [] :=
  (foldl_visit_item_spec c _).2

/-- All mutation sites occurring in function bodies of the crate. -/
def mutationSites (c : Crate) : List MutationSite :=
  c.foldr
    (fun it acc =>
      match it.kind with
      | ItemKind.fnDecl body => body ++ acc
      | _ => acc)
    []

/-! ### Claims -/

/-- C1: the spec claims a mutation site whose enclosing function is not in
the field's permitted set yields exactly one Violation diagnostic at that
site.  On the repository's own ui test (`TestStruct.field` annotated
`#[mutatedby("allowed_function")]`, mutated in `disallowed_function`), the
pass emits no diagnostic at all — `check_crate` only accumulates names and
contains no emission call — and in fact even the permitted name is never
recorded. -/
theorem testTs_no_diagnostic_emitted :
    (⟨"TestStruct", "field", "disallowed_function", 14⟩ : MutationSite)
        ∈ mutationSites testTs
      ∧ "disallowed_function"
        ∉ (check_crate FieldsMutatedByWhitelist.new testTs).allowed_functions
      ∧ (check_crate FieldsMutatedByWhitelist.new testTs).diagnostics = [] := by
  decide

/-- C2: the spec claims the registry maps each (owning-type, field-name)
key to its own permitted set.  The pass's state is one flat
`FxHashSet<String>`: a crate where `f` is whitelisted on struct `A` and `g`
on struct `B` produces exactly the same registry state as a crate where an
unrelated struct `C` whitelists both, namely the keyless set `{f, g}`. -/
theorem registry_flat_set_collapse :
    check_crate FieldsMutatedByWhitelist.new twoStructCrate
        = check_crate FieldsMutatedByWhitelist.new oneStructCrate
      ∧ (check_crate FieldsMutatedByWhitelist.new twoStructCrate).allowed_functions
        = {"f", "g"} := by
  decide

/-- C3: the spec claims identifier tokens and string-literal tokens both
count as permitted names.  The extraction `filter_map` keeps only
`TokenKind::Ident`: the string literal `"allowed_function"` (the exact
shape of the repository's documentation example) contributes nothing, even
when the attribute sits where the pass does look. -/
theorem string_literal_tokens_dropped :
    extractFunctionNames [TokenTree.token (TokenKind.literal "allowed_function")] = []
      ∧ (check_crate FieldsMutatedByWhitelist.new strLitCrate).allowed_functions
        = ∅ := by
  decide

/-- C4: the spec claims only `mutatedby` annotations on fields contribute.
The pass never reads the attribute's path and only reads attributes of the
struct item itself: `#[derive(Clone)]` on a struct adds `Clone` to the
allowed set, while a genuine `#[mutatedby(f)]` on a field adds nothing. -/
theorem attr_path_and_position_ignored :
    (check_crate FieldsMutatedByWhitelist.new
        [⟨"S", [deriveCloneAttr], ItemKind.structDecl [⟨"x", []⟩]⟩]).allowed_functions
        = {"Clone"}
      ∧ (check_crate FieldsMutatedByWhitelist.new
        [⟨"T", [], ItemKind.structDecl [⟨"y", [mutatedbyAttr ["f"]]⟩]⟩]).allowed_functions
        = ∅ := by
  decide

/-- C5: a field carrying no `mutatedby` annotation never gives rise to a
diagnostic naming it, whatever the crate and however many mutation sites it
has: the pass emits no diagnostics whatsoever. -/
theorem unannotated_field_no_diagnostic (c : Crate) (ty fld : String)
    (h : fieldHasMutatedbyAttr c ty fld = false) :
    (check_crate FieldsMutatedByWhitelist.new c).diagnostics.filter
      (fun d => d.fieldName == fld) = [] := by
  rw [check_crate_diagnostics]
  rfl

/-- Witness for C5: `TestStruct` has no field `other` with a `mutatedby`
annotation, and no diagnostic of the ui-test crate names `other`. -/
theorem unannotated_field_no_diagnostic_w :
    fieldHasMutatedbyAttr testTs "TestStruct" "other" = false
      ∧ (check_crate FieldsMutatedByWhitelist.new testTs).diagnostics.filter
        (fun d => d.fieldName == "other") = [] :=
  ⟨by decide, unannotated_field_no_diagnostic testTs "TestStruct" "other" (by decide)⟩

/-- C6: two `mutatedby` annotations on the same field, listing `L1` and
`L2`, leave `check_crate` with exactly the same state — allowed set and
diagnostics — as one annotation listing `L1 ++ L2`, in any crate context.
(Both configurations are field-level attributes, which the pass ignores
wholesale, so the two states coincide.) -/
theorem duplicate_field_annotations_union_equiv
    (p : FieldsMutatedByWhitelist) (pre post : List Item)
    (sname : String) (sattrs : List Attribute) (fpre fpost : List FieldDef)
    (fname : String) (L1 L2 : List String) :
    check_crate p
      (pre ++ ⟨sname, sattrs,
        ItemKind.structDecl
          (fpre ++ ⟨fname, [mutatedbyAttr L1, mutatedbyAttr L2]⟩ :: fpost)⟩ :: post)
    = check_crate p
      (pre ++ ⟨sname, sattrs,
        ItemKind.structDecl
          (fpre ++ ⟨fname, [mutatedbyAttr (L1 ++ L2)]⟩ :: fpost)⟩ :: post) := by
  simp [check_crate, List.foldl_append, visit_item]

/-- C7: `add_function` is idempotent — inserting the same name twice
equals inserting it once — and insertion order is irrelevant, so duplicates
collapse in the stored set. -/
theorem add_function_idempotent_order_irrelevant :
    (∀ (p : FieldsMutatedByWhitelist) (n : String),
      (p.add_function n).add_function n = p.add_function n)
    ∧ (∀ (p : FieldsMutatedByWhitelist) (a b : String),
      (p.add_function a).add_function b = (p.add_function b).add_function a) := by
  constructor
  · intro p n
    simp [FieldsMutatedByWhitelist.add_function]
  · intro p a b
    simp [FieldsMutatedByWhitelist.add_function, Finset.Insert.comm]

/-- C8: the spec claims an annotation with an empty argument list is
deny-all, producing one diagnostic per mutation site.  On a crate with an
empty `#[mutatedby()]` on struct `E` and a function `anybody` mutating
`E.x`, the pass records nothing and emits no diagnostic at all (it never
aborts either: `check_crate` is total). -/
theorem empty_whitelist_emits_nothing :
    (⟨"E", "x", "anybody", 5⟩ : MutationSite) ∈ mutationSites emptyAnnotCrate
      ∧ (check_crate FieldsMutatedByWhitelist.new emptyAnnotCrate).allowed_functions
        = ∅
      ∧ (check_crate FieldsMutatedByWhitelist.new emptyAnnotCrate).diagnostics
        = [] := by
  decide

/-- C9: the analysis is deterministic — running `check_crate` twice over
the same unchanged compilation unit yields identical output (the embedded
pass is a pure function of the crate, so equal inputs give equal
diagnostic lists, content and order included). -/
theorem check_crate_deterministic (c₁ c₂ : Crate) (h : c₁ = c₂) :
    check_crate FieldsMutatedByWhitelist.new c₁
      = check_crate FieldsMutatedByWhitelist.new c₂ := by
  rw [h]

/-- Witness for C9: two runs over the ui-test crate coincide. -/
theorem check_crate_deterministic_w :
    testTs = testTs
      ∧ check_crate FieldsMutatedByWhitelist.new testTs
        = check_crate FieldsMutatedByWhitelist.new testTs :=
  ⟨rfl, check_crate_deterministic testTs testTs rfl⟩

/-- C10: after `check_crate`, `allowed_functions` equals the pass's prior
set united with the union, over every struct item of the crate, of the
identifier tokens of every delimited normal attribute attached to that
item — one global set (enum/union items and the fields' own attributes
contribute nothing, and no diagnostic is ever emitted). -/
theorem check_crate_allowed_functions_global_union
    (p : FieldsMutatedByWhitelist) (c : Crate) :
    (check_crate p c).allowed_functions
        = p.allowed_functions ∪ crateStructIdents c
      ∧ (check_crate p c).diagnostics = [] :=
  ⟨check_crate_allowed p c, check_crate_diagnostics p c⟩
